import Mathlib

/-!
# Verification of the enhanced recommendation engine

Shallow embedding of `services/recommendation_service.py` (class
`EnhancedRecommendationEngine` and the FastAPI endpoints built on it).

Conventions of the embedding:
* Python strings are `List Char` (`Str`); `chars` injects Lean string
  literals.  `s1 in s2` on Python strings is the substring test `strIn`.
* Python dicts coming from the MusicBrainz JSON payload are structures whose
  fields are the keys the code reads (`recording['id']`,
  `recording.get('title','')`, `artist-credit[0].artist.{name,id}`,
  `tags[].name`, …).
* The MusicBrainz client calls (`search_recordings`, `get_artist_recordings`,
  `search_artists`) are parameters of type `_ → Nat → Except Str _`: a
  `.error` value models the call raising an exception, which the engine code
  catches with the corresponding `try/except` block.
* Python float strategy weights (1.0, 0.9, 0.8, 0.7, …) are modelled as exact
  rationals; `int(x)` on a non-negative value is `Int.toNat ⌊x⌋`.
* `user_profile.favorite_genres` / `favorite_artists` hold the already
  JSON-decoded lists (the code decodes them with `json.loads`).
-/

namespace MBRec

attribute [local semireducible] Rat.mul Rat.inv

/-- Python strings, as lists of characters. -/
abbrev Str := List Char

/-- Inject a Lean string literal into the model. -/
def chars (s : String) : Str := s.data

/-- Python `str.lower()`. -/
def lowerStr (s : Str) : Str := s.map Char.toLower

/-- Test `leadsWith needle hay` : `needle` occurs at the start of `hay`. -/
def leadsWith : Str → Str → Bool
  | [], _ => true
  | _ :: _, [] => false
  | a :: as, b :: bs => a == b && leadsWith as bs

/-- Python's substring containment `needle in hay` for strings. -/
def strIn (needle : Str) : Str → Bool
  | [] => needle.isEmpty
  | c :: rest => leadsWith needle (c :: rest) || strIn needle rest

/-- Python `str.split()` : split on whitespace runs, dropping empty words.
`acc` holds the characters of the current word in reverse. -/
def splitWsAux : Str → Str → List Str
  | [], acc => if acc.isEmpty then [] else [acc.reverse]
  | c :: rest, acc =>
    if c.isWhitespace then
      if acc.isEmpty then splitWsAux rest [] else acc.reverse :: splitWsAux rest []
    else splitWsAux rest (c :: acc)

/-- Python `str.split()` with no separator argument. -/
def splitWs (s : Str) : List Str := splitWsAux s []

/-- Table `self.genre_keywords` : insertion-ordered dict from `__init__`. -/
def genre_keywords : List (Str × List Str) :=
  [ (chars "rock", [chars "rock", chars "alternative", chars "indie", chars "grunge",
      chars "punk", chars "metal", chars "hard rock", chars "classic rock"]),
    (chars "pop", [chars "pop", chars "dance", chars "electropop", chars "synth-pop",
      chars "bubblegum", chars "mainstream"]),
    (chars "jazz", [chars "jazz", chars "swing", chars "bebop", chars "smooth jazz",
      chars "fusion", chars "bossa nova"]),
    (chars "classical", [chars "classical", chars "orchestra", chars "symphony",
      chars "concerto", chars "opera", chars "chamber"]),
    (chars "electronic", [chars "electronic", chars "edm", chars "techno", chars "house",
      chars "ambient", chars "synthesizer", chars "electro"]),
    (chars "hip-hop", [chars "hip-hop", chars "rap", chars "trap", chars "gangsta",
      chars "conscious", chars "old school", chars "boom bap"]),
    (chars "country", [chars "country", chars "bluegrass", chars "folk", chars "americana",
      chars "western", chars "honky-tonk"]),
    (chars "blues", [chars "blues", chars "rhythm and blues", chars "delta blues",
      chars "chicago blues", chars "electric blues"]),
    (chars "reggae", [chars "reggae", chars "ska", chars "dub", chars "dancehall",
      chars "roots reggae"]),
    (chars "r&b", [chars "r&b", chars "soul", chars "funk", chars "motown",
      chars "neo-soul", chars "contemporary r&b"]) ]

/-- Table `self.mood_keywords` : insertion-ordered dict from `__init__`. -/
def mood_keywords : List (Str × List Str) :=
  [ (chars "upbeat", [chars "upbeat", chars "energetic", chars "fast", chars "dance",
      chars "party", chars "happy", chars "lively"]),
    (chars "relaxing", [chars "relaxing", chars "calm", chars "chill", chars "peaceful",
      chars "ambient", chars "slow", chars "mellow"]),
    (chars "emotional", [chars "emotional", chars "sad", chars "melancholy",
      chars "heartbreak", chars "ballad", chars "deep"]),
    (chars "aggressive", [chars "aggressive", chars "hard", chars "heavy", chars "intense",
      chars "angry", chars "powerful"]),
    (chars "romantic", [chars "romantic", chars "love", chars "sweet", chars "tender",
      chars "intimate", chars "soft"]) ]

/-- Lookup `dict.get(key, [])` on the keyword tables. -/
def lookupKws (table : List (Str × List Str)) (g : Str) : List Str :=
  match table.find? (fun p => p.1 = g) with
  | some p => p.2
  | none => []

/-- Test `any(keyword in query_lower for keyword in keywords)`. -/
def matchesAny (ql : Str) (kws : List Str) : Bool := kws.any (fun k => strIn k ql)

/-- The dict returned by `extract_search_intent` (its five keys). -/
structure SearchIntent where
  genres : List Str
  moods : List Str
  artists : List Str
  keywords : List Str
  original_query : Str
deriving Repr, DecidableEq

/-- The key set of the `intent` dict built by `extract_search_intent`;
the function returns exactly these keys, unconditionally. -/
def intent_json_keys (_i : SearchIntent) : List String :=
  ["genres", "moods", "artists", "keywords", "original_query"]

/-- The genre loop of `extract_search_intent`: appends every genre whose
keyword list has a member contained in the lowered query. -/
def extractByTable (table : List (Str × List Str)) (ql : Str) : List Str :=
  table.foldl (fun acc p => if matchesAny ql p.2 then acc ++ [p.1] else acc) []

/-- Connector words of the artist heuristic. -/
def connectors : List Str := [chars "by", chars "from", chars "artist", chars "band"]

/-- The artist heuristic: the words after the first connector word that has a
successor; a connector in final position does not trigger (the `break` sits
inside `if i + 1 < len(words)`). -/
def extractArtists : List Str → List Str
  | [] => []
  | w :: rest =>
    if connectors.contains w ∧ rest ≠ [] then rest
    else extractArtists rest

/-- Method `EnhancedRecommendationEngine.extract_search_intent`. -/
def extract_search_intent (query : Str) : SearchIntent :=
  let ql := lowerStr query
  { genres := extractByTable genre_keywords ql
    moods := extractByTable mood_keywords ql
    artists := extractArtists (splitWs ql)
    keywords := splitWs ql
    original_query := query }

/-- A raw candidate record from MusicBrainz, with the fields the engine
reads: `id`, `title`, `artist-credit[0].artist.id/.name`, `tags[].name`. -/
structure Recording where
  id : Str
  title : Str
  artist_id : Str
  artist_name : Str
  tags : List Str
deriving Repr, DecidableEq

/-- A user profile with its JSON-decoded preference lists. -/
structure UserProfile where
  favorite_genres : List Str
  favorite_artists : List Str
deriving Repr, DecidableEq

/-- Title block of `calculate_relevance_score`: 15 points when the keyword
equals the whole (lowered) title, 10 when it is merely contained. -/
def title_score_calc (keywords : List Str) (title : Str) : Nat :=
  keywords.foldl
    (fun acc w => if strIn w title then acc + (if w = title then 15 else 10) else acc) 0

/-- Artist block of `calculate_relevance_score`: 20 points per contained
keyword longer than 3 characters (else 10), plus 25 per extracted candidate
artist fragment contained in the artist name. -/
def artist_score_calc (keywords artistFrags : List Str) (artistName : Str) : Nat :=
  keywords.foldl
    (fun acc w => if strIn w artistName then acc + (if 3 < w.length then 20 else 10) else acc)
    0
  + artistFrags.foldl
      (fun acc a => if strIn a artistName then acc + 25 else acc) 0

/-- Genre block of `calculate_relevance_score`: per detected genre, 20 points
when some tag contains a genre keyword (the inner loop `break`s after the
first such tag), plus 15 when a genre keyword occurs in title or artist. -/
def genre_score_calc (genres : List Str) (title artistName : Str) (tagNames : List Str) :
    Nat :=
  genres.foldl
    (fun acc g =>
      let kws := lookupKws genre_keywords g
      let acc := if tagNames.any (fun t => kws.any (fun k => strIn k t)) then acc + 20 else acc
      if kws.any (fun k => strIn k title || strIn k artistName) then acc + 15 else acc)
    0

/-- Mood block of `calculate_relevance_score`: per detected mood, 8 points
when a mood keyword occurs in title or artist, plus 5 when some tag contains
a mood keyword. -/
def mood_score_calc (moods : List Str) (title artistName : Str) (tagNames : List Str) :
    Nat :=
  moods.foldl
    (fun acc m =>
      let kws := lookupKws mood_keywords m
      let acc := if kws.any (fun k => strIn k title || strIn k artistName) then acc + 8 else acc
      if tagNames.any (fun t => kws.any (fun k => strIn k t)) then acc + 5 else acc)
    0

/-- Profile block of `calculate_relevance_score`: 5 points per favourite genre
that was detected, plus 15 when the candidate's artist id is a favourite. -/
def profile_score_calc (profile : Option UserProfile) (genres : List Str)
    (artistId : Str) : Nat :=
  match profile with
  | none => 0
  | some prof =>
    prof.favorite_genres.foldl (fun acc g => if g ∈ genres then acc + 5 else acc) 0
    + (if artistId ∈ prof.favorite_artists then 15 else 0)

/-- Method `EnhancedRecommendationEngine.calculate_relevance_score`, accumulator for
accumulator.  Each block is capped with `min` before being added; when the
title, artist and genre blocks are all zero the running score is reduced by
20 (`max(score - 20, 0)` is truncated `Nat` subtraction); the result is
capped at `max_score = 100`. -/
def calculate_relevance_score (recording : Recording) (intent : SearchIntent)
    (profile : Option UserProfile) : Nat :=
  let title := lowerStr recording.title
  let artistName := lowerStr recording.artist_name
  let tagNames := recording.tags.map lowerStr
  let sT := title_score_calc intent.keywords title
  let sA := artist_score_calc intent.keywords intent.artists artistName
  let sG := genre_score_calc intent.genres title artistName tagNames
  let sM := mood_score_calc intent.moods title artistName tagNames
  let sP := profile_score_calc profile intent.genres recording.artist_id
  let score := min sT 25 + min sA 30 + min sG 25 + min sM 10 + min sP 10
  let score := if sT = 0 ∧ sA = 0 ∧ sG = 0 then score - 20 else score
  min score 100

/-- Conversion `int(base_score * strategy['weight'])` from `get_query_recommendations`;
for the non-negative products that occur, Python's truncation is the floor. -/
def apply_strategy_weight (base : Nat) (w : ℚ) : Nat := (Rat.floor ((base : ℚ) * w)).toNat

/-- One search strategy of `get_query_recommendations`: a catalog query
string and a float weight (modelled as an exact rational). -/
structure SearchStrategy where
  query : Str
  weight : ℚ
deriving Repr

/-- The MusicBrainz `search_recordings` call; `.error` models a raised
exception. -/
abbrev SearchFn := Str → Nat → Except Str (List Recording)

/-- The MusicBrainz `get_artist_recordings` call. -/
abbrev ArtistRecsFn := Str → Nat → Except Str (List Recording)

/-- The `search_strategies` list literal of `get_query_recommendations`:
the direct query first with weight 1.0, then `tag:` searches per detected
genre (0.9), quoted artist searches per artist fragment (0.8), and mood
searches (0.7). -/
def search_strategies (query : Str) (intent : SearchIntent) : List SearchStrategy :=
  { query := query, weight := 1 } ::
    (intent.genres.map (fun g => { query := chars "tag:" ++ g, weight := 9/10 })
      ++ intent.artists.map
          (fun a => { query := chars "artist:\"" ++ a ++ chars "\"", weight := 8/10 })
      ++ intent.moods.map (fun m => { query := m, weight := 7/10 }))

/-- The `seen_queries` dedupe loop: drop strategies whose query string was
already seen, keeping the first occurrence. -/
def dedupe_strategies (l : List SearchStrategy) : List SearchStrategy :=
  l.foldl (fun acc s => if acc.any (fun t => t.query = s.query) then acc else acc ++ [s]) []

/-- A recommendation dict as assembled by the engine.  The
`search_strategy` key only exists in query-based recommendations; where the
Python dict lacks it, the model stores the empty string. -/
structure RecOut where
  track_id : Str
  track_title : Str
  artist_id : Str
  artist_name : Str
  score : Nat
  recommendation_type : Str
  search_strategy : Str
deriving Repr, DecidableEq

/-- One iteration of the `for strategy in unique_strategies[:5]` loop: run
the search (a failure is caught and contributes nothing) and score every
returned recording with this strategy's weight. -/
def strategy_results (search : SearchFn) (limit : Nat) (intent : SearchIntent)
    (profile : Option UserProfile) (s : SearchStrategy) : List RecOut :=
  match search s.query (min (limit * 2) 25) with
  | .error _ => []
  | .ok recordings =>
    recordings.map (fun r =>
      { track_id := r.id, track_title := r.title, artist_id := r.artist_id,
        artist_name := r.artist_name,
        score := apply_strategy_weight (calculate_relevance_score r intent profile) s.weight,
        recommendation_type := chars "enhanced_query_based",
        search_strategy := s.query })

/-- The full `recommendations` list collected by `get_query_recommendations`
before deduplication. -/
def raw_query_recs (search : SearchFn) (query : Str) (limit : Nat)
    (profile : Option UserProfile) : List RecOut :=
  let intent := extract_search_intent query
  ((dedupe_strategies (search_strategies query intent)).take 5).foldl
    (fun acc s => acc ++ strategy_results search limit intent profile s) []

/-- Update `track_scores[track_id] = rec` with the guard
`track_id not in track_scores or rec['score'] > track_scores[track_id]['score']`:
replace an existing entry in place only on a strictly higher score, else
append at the end (dict insertion order). -/
def upsert_rec : List RecOut → RecOut → List RecOut
  | [], r => [r]
  | x :: xs, r =>
    if x.track_id = r.track_id then (if x.score < r.score then r else x) :: xs
    else x :: upsert_rec xs r

/-- Dict `track_scores` built over all collected recommendations. -/
def dedupe_by_track (l : List RecOut) : List RecOut := l.foldl upsert_rec []

/-- Relation used by the sort: `a` sorts no later than `b` in
score-descending order. -/
def recGE (a b : RecOut) : Prop := b.score ≤ a.score

instance : DecidableRel recGE := fun a b => Nat.decLe b.score a.score

instance : IsTotal RecOut recGE := ⟨fun a b => Nat.le_total b.score a.score⟩

instance : IsTrans RecOut recGE := ⟨fun _ _ _ hab hbc => le_trans hbc hab⟩

/-- Python `list.sort(key=lambda x: x['score'], reverse=True)`: a stable
score-descending sort. -/
def sort_by_score_desc (l : List RecOut) : List RecOut := List.insertionSort recGE l

/-- Method `EnhancedRecommendationEngine.get_query_recommendations`. -/
def get_query_recommendations (search : SearchFn) (query : Str) (limit : Nat)
    (profile : Option UserProfile) : List RecOut :=
  (sort_by_score_desc (dedupe_by_track (raw_query_recs search query limit profile))).take limit

/-- The JSON body and status of `GET /recommendations/query`
(`services/recommendation_service.py`, the endpoint function).  The profile
lookup (`db.query(UserProfile)…`) is a parameter; when it raises, the
endpoint's `except` turns it into an `HTTPException(500)`, modelled as a
status-500 response with empty payload fields. -/
structure QueryResponse where
  status : Nat
  recommendations : List RecOut
  query_analyzed : SearchIntent
deriving Repr

/-- The `GET /recommendations/query` endpoint. -/
def rec_query_endpoint (search : SearchFn)
    (profileLookup : Except Str (Option UserProfile)) (query : Str) (limit : Nat) :
    QueryResponse :=
  match profileLookup with
  | .error _ =>
    { status := 500, recommendations := [], query_analyzed := ⟨[], [], [], [], []⟩ }
  | .ok profile =>
    { status := 200,
      recommendations := get_query_recommendations search query limit profile,
      query_analyzed := extract_search_intent query }

/-- Favourite-artist loop of `get_profile_recommendations`: first 3
favourite artists, first 5 recordings each, fixed score 95; a failing
`get_artist_recordings` call is caught and skipped. -/
def profile_artist_recs (getRecs : ArtistRecsFn) (favArtists : List Str) : List RecOut :=
  (favArtists.take 3).foldl
    (fun acc aid =>
      match getRecs aid 20 with
      | .error _ => acc
      | .ok recs =>
        acc ++ (recs.take 5).map (fun r =>
          { track_id := r.id, track_title := r.title, artist_id := aid,
            artist_name := r.artist_name, score := 95,
            recommendation_type := chars "profile_favorite_artist",
            search_strategy := [] })) []

/-- One genre-derived recommendation of `get_profile_recommendations`:
relevance against the genre's own intent, raised to the floor of 70. -/
def profile_genre_rec (g : Str) (profile : UserProfile) (r : Recording) : RecOut :=
  { track_id := r.id, track_title := r.title, artist_id := r.artist_id,
    artist_name := r.artist_name,
    score := max (calculate_relevance_score r (extract_search_intent g) (some profile)) 70,
    recommendation_type := chars "profile_genre",
    search_strategy := [] }

/-- The three search queries tried per favourite genre. -/
def genre_search_queries (g : Str) : List Str :=
  [chars "tag:" ++ g, g, chars "genre:" ++ g]

/-- The `for search_query in search_queries` loop for one favourite genre:
take 2 recordings per query, stop once `limit * 2` recommendations have
accumulated; a failing search aborts the rest of this genre's queries
(caught by the per-genre `except`), keeping what was already collected. -/
def profile_genre_queries (search : SearchFn) (profile : UserProfile) (g : Str)
    (limit : Nat) : List Str → List RecOut → List RecOut
  | [], acc => acc
  | q :: qs, acc =>
    match search q 10 with
    | .error _ => acc
    | .ok grecs =>
      let acc2 := acc ++ (grecs.take 2).map (profile_genre_rec g profile)
      if limit * 2 ≤ acc2.length then acc2
      else profile_genre_queries search profile g limit qs acc2

/-- The complete `recommendations` list of `get_profile_recommendations`
before deduplication: favourite-artist recommendations, then the genre loop
over the first 3 favourite genres. -/
def profile_raw_recs (getRecs : ArtistRecsFn) (search : SearchFn) (profile : UserProfile)
    (limit : Nat) : List RecOut :=
  (profile.favorite_genres.take 3).foldl
    (fun acc g => profile_genre_queries search profile g limit (genre_search_queries g) acc)
    (profile_artist_recs getRecs profile.favorite_artists)

/-- The `seen_tracks` dedupe of `get_profile_recommendations`: keep the
first occurrence of each track id. -/
def dedupe_first_by_track (l : List RecOut) : List RecOut :=
  l.foldl
    (fun acc r => if acc.any (fun x => x.track_id = r.track_id) then acc else acc ++ [r]) []

/-- Method `EnhancedRecommendationEngine.get_profile_recommendations`. -/
def get_profile_recommendations (getRecs : ArtistRecsFn) (search : SearchFn)
    (profile : UserProfile) (limit : Nat) : List RecOut :=
  (sort_by_score_desc
    (dedupe_first_by_track (profile_raw_recs getRecs search profile limit))).take limit

/-- An artist record from MusicBrainz `search_artists`, with the fields the
engine reads: `id`, `name`, `country` (may be absent), `life-span.begin`
(defaulted to the empty string). -/
structure ArtistRec where
  id : Str
  name : Str
  country : Option Str
  life_span_begin : Str
deriving Repr, DecidableEq

/-- The MusicBrainz `search_artists` call. -/
abbrev ArtistSearchFn := Str → Nat → Except Str (List ArtistRec)

/-- Parse `int(begin[:4])` of a life-span begin date; `none` models both the
falsy-empty guard and a caught `ValueError`. -/
def parse_year (s : Str) : Option Nat :=
  let t := s.take 4
  if t = [] then none
  else if t.all Char.isDigit then
    some (t.foldl (fun acc c => acc * 10 + (c.toNat - 48)) 0)
  else none

/-- The `inferred_genres` of `get_similar_artist_recommendations`: every
genre one of whose keywords is contained in some (lowered) tag of the sample
tracks.  Python iterates a `set` in unspecified order; the model fixes
first-insertion order, which no claim depends on. -/
def inferred_genres_from (tracks : List Recording) : List Str :=
  tracks.foldl
    (fun acc tr => tr.tags.foldl
      (fun acc tag => genre_keywords.foldl
        (fun acc p =>
          if matchesAny (lowerStr tag) p.2 ∧ p.1 ∉ acc then acc ++ [p.1] else acc)
        acc)
      acc)
    []

/-- The `search_strategies` of `get_similar_artist_recommendations`: the
three name-based searches, plus `tag:` searches for at most two inferred
genres when the primary artist has an id and its sample-track fetch does not
fail. -/
def similar_search_strategies (getRecs : ArtistRecsFn) (artist_name : Str)
    (primary : ArtistRec) : List Str :=
  let base := [artist_name, artist_name ++ chars " similar", artist_name ++ chars " style"]
  if primary.id = [] then base
  else
    match getRecs primary.id 5 with
    | .error _ => base
    | .ok tracks =>
      base ++ ((inferred_genres_from tracks).take 2).map (fun g => chars "tag:" ++ g)

/-- The `similar_artists` accumulation: 5 artists per strategy, failing
searches skipped. -/
def collect_similar_artists (searchA : ArtistSearchFn) (strategies : List Str) :
    List ArtistRec :=
  strategies.foldl
    (fun acc s =>
      match searchA s 5 with
      | .error _ => acc
      | .ok artists => acc ++ artists) []

/-- The `seen_artist_ids` dedupe: drop the primary artist and keep the first
occurrence of every other artist id. -/
def dedupe_artists (primaryId : Str) (l : List ArtistRec) : List ArtistRec :=
  (l.foldl
    (fun st a => if a.id ∈ st.1 then st else (st.1 ++ [a.id], st.2 ++ [a]))
    ([primaryId], ([] : List ArtistRec))).2

/-- Score `base_similarity` for one similar artist: 60, plus 15 for mutual name
containment, plus 10 for identical non-empty countries, plus 10 for begin
years at most 10 apart. -/
def similarity_base (artist_name : Str) (primary a : ArtistRec) : Nat :=
  let b := 60
  let b := if strIn (lowerStr artist_name) (lowerStr a.name)
              || strIn (lowerStr a.name) (lowerStr artist_name) then b + 15 else b
  let b :=
    match primary.country, a.country with
    | some c1, some c2 => if c1 ≠ [] ∧ c2 ≠ [] ∧ c1 = c2 then b + 10 else b
    | _, _ => b
  match parse_year primary.life_span_begin, parse_year a.life_span_begin with
  | some y1, some y2 => if ((y1 : ℤ) - (y2 : ℤ)).natAbs ≤ 10 then b + 10 else b
  | _, _ => b

/-- The recording loop over the (at most 5) deduplicated similar artists:
4 recordings each, score `min(base_similarity, 85)`; a failing fetch skips
that artist. -/
def similar_artist_recs (getRecs : ArtistRecsFn) (artist_name : Str) (primary : ArtistRec)
    (artists : List ArtistRec) : List RecOut :=
  artists.foldl
    (fun acc a =>
      match getRecs a.id 4 with
      | .error _ => acc
      | .ok recs =>
        acc ++ recs.map (fun r =>
          { track_id := r.id, track_title := r.title, artist_id := a.id,
            artist_name := a.name,
            score := min (similarity_base artist_name primary a) 85,
            recommendation_type := chars "enhanced_similar_artist",
            search_strategy := [] })) []

/-- Method `EnhancedRecommendationEngine.get_similar_artist_recommendations`.  A
failing primary search is caught by the outer `except` and yields the empty
list, as does an empty primary search result. -/
def get_similar_artist_recommendations (searchA : ArtistSearchFn) (getRecs : ArtistRecsFn)
    (artist_name : Str) (limit : Nat) : List RecOut :=
  match searchA artist_name 5 with
  | .error _ => []
  | .ok [] => []
  | .ok (primary :: _) =>
    let strategies := similar_search_strategies getRecs artist_name primary
    let uniq := (dedupe_artists primary.id (collect_similar_artists searchA strategies)).take 5
    (sort_by_score_desc (similar_artist_recs getRecs artist_name primary uniq)).take limit

/-- One pass of the diversity filter: accept a candidate while its lowered
artist name has been accepted fewer than `maxPer` times. -/
def diversity_pass (maxPer : Nat) : List RecOut → List Str → List RecOut
  | [], _ => []
  | r :: rs, seen =>
    let a := lowerStr r.artist_name
    if seen.count a < maxPer then r :: diversity_pass maxPer rs (a :: seen)
    else diversity_pass maxPer rs seen

/-- Modelled from the spec: `ensure_artist_diversity` is imported by the
repository's FMEA tests from `services.recommendation_service` but its
definition is absent from the source tree.  Spec §4.5: sort the input by
score descending, iterate in that order keeping a running per-artist-name
count (case-insensitive), and accept a candidate only while its artist's
count is below `max_per_artist`. -/
def ensure_artist_diversity (recs : List RecOut) (max_per_artist : Nat) : List RecOut :=
  diversity_pass max_per_artist (sort_by_score_desc recs) []

/-- The five independently capped sub-scores of the scorer, summed — the
formula exactly as the spec's contract words it, with no penalty step. -/
def capped_sub_score_sum (r : Recording) (i : SearchIntent) (p : Option UserProfile) :
    Nat :=
  min (title_score_calc i.keywords (lowerStr r.title)) 25
  + min (artist_score_calc i.keywords i.artists (lowerStr r.artist_name)) 30
  + min (genre_score_calc i.genres (lowerStr r.title) (lowerStr r.artist_name)
      (r.tags.map lowerStr)) 25
  + min (mood_score_calc i.moods (lowerStr r.title) (lowerStr r.artist_name)
      (r.tags.map lowerStr)) 10
  + min (profile_score_calc p i.genres r.artist_id) 10

/-- The scorer that claim C1 asserts: the capped sum multiplied by the
strategy weight and made an integer, with no penalty step. -/
def claimed_score_C1 (r : Recording) (i : SearchIntent) (p : Option UserProfile)
    (w : ℚ) : Nat :=
  apply_strategy_weight (capped_sub_score_sum r i p) w

/-- The capped sum with the poor-match penalty the code applies: 20 points
off (floored at zero) when the title, artist and genre blocks are all zero. -/
def penalized_sub_score_sum (r : Recording) (i : SearchIntent) (p : Option UserProfile) :
    Nat :=
  if title_score_calc i.keywords (lowerStr r.title) = 0
      ∧ artist_score_calc i.keywords i.artists (lowerStr r.artist_name) = 0
      ∧ genre_score_calc i.genres (lowerStr r.title) (lowerStr r.artist_name)
          (r.tags.map lowerStr) = 0
    then capped_sub_score_sum r i p - 20 else capped_sub_score_sum r i p

/-- Candidate `r` with `ext` appended to its artist name. -/
def appendToArtist (r : Recording) (ext : Str) : Recording :=
  { r with artist_name := r.artist_name ++ ext }

/-- Test fixture: a fixed recording titled "hello". -/
def fixed_track : Recording :=
  { id := chars "t1", title := chars "hello", artist_id := chars "a1",
    artist_name := chars "x", tags := [] }

/-- Test fixture: a backend returning the fixed recording for every search. -/
def fixed_search : SearchFn := fun _ _ => Except.ok [fixed_track]

/-- Test fixture: a backend returning one recording titled by the query
itself, so a response exhibits which query the engine searched. -/
def echo_search : SearchFn :=
  fun q _ =>
    Except.ok [{ id := chars "t1", title := q, artist_id := chars "a1",
                 artist_name := chars "x", tags := [] }]

/-- Test fixture: a primary artist. -/
def primary_artist_w : ArtistRec :=
  { id := chars "a0", name := chars "prim", country := none, life_span_begin := [] }

/-- Test fixture: a similar artist whose name contains the primary name. -/
def similar_artist_w : ArtistRec :=
  { id := chars "b1", name := chars "the prim band", country := none,
    life_span_begin := [] }

/-- Test fixture: an artist-search backend returning both fixture artists. -/
def artist_search_w : ArtistSearchFn :=
  fun _ _ => Except.ok [primary_artist_w, similar_artist_w]

/-- Test fixture: a user profile with one favourite genre and artist. -/
def profile_w : UserProfile :=
  { favorite_genres := [chars "jazz"], favorite_artists := [chars "a1"] }

theorem leadsWith_append {n h : Str} (e : Str) (hl : leadsWith n h = true) :
    leadsWith n (h ++ e) = true := by
  induction n generalizing h with
  | nil => rfl
  | cons a as ih =>
    cases h with
    | nil => exact absurd hl (by simp [leadsWith])
    | cons b bs =>
      simp only [leadsWith, Bool.and_eq_true] at hl
      simpa [leadsWith, hl.1] using ih hl.2

theorem strIn_nil_needle (h : Str) : strIn [] h = true := by
  cases h <;> simp [strIn, leadsWith]

theorem strIn_append {n h : Str} (e : Str) (hs : strIn n h = true) :
    strIn n (h ++ e) = true := by
  induction h with
  | nil =>
    simp only [strIn, List.isEmpty_iff] at hs
    subst hs
    exact strIn_nil_needle e
  | cons c rest ih =>
    simp only [strIn, Bool.or_eq_true] at hs
    rcases hs with hs | hs
    · have := leadsWith_append (h := c :: rest) e hs
      simp only [List.cons_append] at this ⊢
      simp [strIn, this]
    · simp [strIn, ih hs]

theorem lowerStr_append (a b : Str) : lowerStr (a ++ b) = lowerStr a ++ lowerStr b :=
  List.map_append _ a b

theorem apply_strategy_weight_eq (base : Nat) (w : ℚ) :
    apply_strategy_weight base w = (⌊(base : ℚ) * w⌋).toNat := by
  rw [apply_strategy_weight, Rat.floor_def, Rat.floor_def']

theorem apply_strategy_weight_one (base : Nat) : apply_strategy_weight base 1 = base := by
  rw [apply_strategy_weight_eq, mul_one, Int.floor_natCast, Int.toNat_natCast]

theorem apply_strategy_weight_mono {b1 b2 : Nat} {w : ℚ} (hw : 0 ≤ w) (hb : b1 ≤ b2) :
    apply_strategy_weight b1 w ≤ apply_strategy_weight b2 w := by
  rw [apply_strategy_weight_eq, apply_strategy_weight_eq]
  exact Int.toNat_le_toNat
    (Int.floor_le_floor (mul_le_mul_of_nonneg_right (by exact_mod_cast hb) hw))

theorem apply_strategy_weight_le_base {base : Nat} {w : ℚ} (hw1 : w ≤ 1) :
    apply_strategy_weight base w ≤ base := by
  rw [apply_strategy_weight_eq]
  have h1 : (base : ℚ) * w ≤ (base : ℚ) * 1 :=
    mul_le_mul_of_nonneg_left hw1 (by positivity)
  have h2 : ⌊(base : ℚ) * w⌋ ≤ (base : ℤ) := by
    calc ⌊(base : ℚ) * w⌋ ≤ ⌊((base : ℚ) : ℚ)⌋ := Int.floor_le_floor (by simpa using h1)
    _ = (base : ℤ) := Int.floor_natCast base
  calc (⌊(base : ℚ) * w⌋).toNat ≤ ((base : ℤ)).toNat := Int.toNat_le_toNat h2
  _ = base := Int.toNat_natCast base

/-- C1 (amended): for every candidate, intent, profile and strategy weight
in (0,1], the weighted relevance score equals the capped sub-score sum
(title ≤25, artist ≤30, genre ≤25, mood ≤10, profile ≤10) with the
poor-match penalty applied and clamped at 100, multiplied by the strategy
weight and truncated to an integer; being a function of exactly these
inputs it is deterministic, and it always lies in [0,100]. -/
theorem C1_scorer_formula (r : Recording) (i : SearchIntent) (p : Option UserProfile)
    {w : ℚ} (_hw0 : 0 < w) (hw1 : w ≤ 1) :
    apply_strategy_weight (calculate_relevance_score r i p) w
      = apply_strategy_weight (min (penalized_sub_score_sum r i p) 100) w
    ∧ apply_strategy_weight (calculate_relevance_score r i p) w ≤ 100 := by
  have heq : calculate_relevance_score r i p = min (penalized_sub_score_sum r i p) 100 :=
    rfl
  refine ⟨by rw [heq], ?_⟩
  calc apply_strategy_weight (calculate_relevance_score r i p) w
      ≤ calculate_relevance_score r i p := apply_strategy_weight_le_base hw1
  _ ≤ 100 := by rw [heq]; exact min_le_right _ _

/-- Witness for C1: the weight hypotheses hold at weight 1, where the
formula is instantiated at a concrete candidate and intent. -/
theorem C1_scorer_formula_witness :
    (0 : ℚ) < 1 ∧ (1 : ℚ) ≤ 1 ∧
      (apply_strategy_weight (calculate_relevance_score
          { id := chars "t1", title := chars "rock", artist_id := chars "a1",
            artist_name := chars "x", tags := [] }
          (extract_search_intent (chars "rock")) none) 1
        = apply_strategy_weight (min (penalized_sub_score_sum
            { id := chars "t1", title := chars "rock", artist_id := chars "a1",
              artist_name := chars "x", tags := [] }
            (extract_search_intent (chars "rock")) none) 100) 1
      ∧ apply_strategy_weight (calculate_relevance_score
          { id := chars "t1", title := chars "rock", artist_id := chars "a1",
            artist_name := chars "x", tags := [] }
          (extract_search_intent (chars "rock")) none) 1 ≤ 100) :=
  ⟨one_pos, le_refl 1,
    C1_scorer_formula
      { id := chars "t1", title := chars "rock", artist_id := chars "a1",
        artist_name := chars "x", tags := [] }
      (extract_search_intent (chars "rock")) none one_pos (le_refl 1)⟩

/-- Counterexample to C1 as stated: for the query "upbeat" and a candidate
titled "Party Time" matching only the mood block, the capped sub-score sum
times weight 1 is 8, but the code's poor-match penalty (not mentioned by the
claim) drives the actual score to 0. -/
theorem C1_counterexample :
    apply_strategy_weight (calculate_relevance_score
        { id := chars "t1", title := chars "Party Time", artist_id := chars "a1",
          artist_name := chars "x", tags := [] }
        (extract_search_intent (chars "upbeat")) none) 1
      ≠ claimed_score_C1
        { id := chars "t1", title := chars "Party Time", artist_id := chars "a1",
          artist_name := chars "x", tags := [] }
        (extract_search_intent (chars "upbeat")) none 1 := by
  rw [claimed_score_C1, apply_strategy_weight_one, apply_strategy_weight_one]
  decide

theorem foldl_append_filter {α β : Type _} (f : α → Bool) (g : α → β) (l : List α) :
    ∀ acc : List β,
      l.foldl (fun a x => if f x then a ++ [g x] else a) acc
        = acc ++ (l.filter f).map g := by
  induction l with
  | nil => intro acc; simp
  | cons x xs ih =>
    intro acc
    by_cases hx : f x
    · simp [hx, ih, List.filter_cons]
    · simp [hx, ih, List.filter_cons]

/-- C4 (amended): genre detection performs case-insensitive
keyword-containment matching against the genre table and collects every
matching genre, in the table's fixed insertion order rock, pop, jazz,
classical, electronic, hip-hop, country, blues, reggae, r&b. -/
theorem C4_genre_detection (query : Str) :
    (extract_search_intent query).genres
      = (genre_keywords.filter (fun p => matchesAny (lowerStr query) p.2)).map Prod.fst
    ∧ genre_keywords.map Prod.fst
      = [chars "rock", chars "pop", chars "jazz", chars "classical", chars "electronic",
         chars "hip-hop", chars "country", chars "blues", chars "reggae", chars "r&b"] := by
  constructor
  · show extractByTable genre_keywords (lowerStr query) = _
    rw [extractByTable, foldl_append_filter]
    rfl
  · rfl

/-- Counterexample to C4 as stated: the query "jazz rock" matches the
keyword tables of two genres, and the extractor returns both (in table
order), not exactly one highest-priority genre. -/
theorem C4_counterexample :
    (extract_search_intent (chars "jazz rock")).genres = [chars "rock", chars "jazz"]
    ∧ ((extract_search_intent (chars "jazz rock")).genres).length ≠ 1 := by
  constructor
  · decide
  · decide

theorem dedupe_strategies_decomp (l : List SearchStrategy) :
    ∀ acc, ∃ t,
      l.foldl (fun acc s => if acc.any (fun x => x.query = s.query) then acc
        else acc ++ [s]) acc = acc ++ t ∧ t.Sublist l := by
  induction l with
  | nil => intro acc; exact ⟨[], by simp⟩
  | cons s rest ih =>
    intro acc
    simp only [List.foldl_cons]
    by_cases hs : acc.any (fun x => x.query = s.query)
    · obtain ⟨t, ht, hsub⟩ := ih acc
      exact ⟨t, by rw [if_pos hs]; exact ht, hsub.cons s⟩
    · obtain ⟨t, ht, hsub⟩ := ih (acc ++ [s])
      refine ⟨s :: t, ?_, hsub.cons₂ s⟩
      rw [if_neg hs, ht]
      simp
  
theorem dedupe_strategies_cons (s : SearchStrategy) (rest : List SearchStrategy) :
    ∃ t, dedupe_strategies (s :: rest) = s :: t ∧ t.Sublist rest := by
  have h1 : dedupe_strategies (s :: rest)
      = rest.foldl (fun acc s => if acc.any (fun x => x.query = s.query) then acc
          else acc ++ [s]) [s] := rfl
  obtain ⟨t, ht, hsub⟩ := dedupe_strategies_decomp rest [s]
  exact ⟨t, by rw [h1, ht]; rfl, hsub⟩

theorem dedupe_strategies_nodup_aux (l : List SearchStrategy) :
    ∀ acc : List SearchStrategy, (acc.map SearchStrategy.query).Nodup →
      ((l.foldl (fun (acc : List SearchStrategy) s =>
          if acc.any (fun x => x.query = s.query) then acc
          else acc ++ [s]) acc).map SearchStrategy.query).Nodup := by
  induction l with
  | nil => intro acc h; exact h
  | cons s rest ih =>
    intro acc hacc
    simp only [List.foldl_cons]
    by_cases hs : acc.any (fun x => x.query = s.query)
    · rw [if_pos hs]; exact ih acc hacc
    · rw [if_neg hs]
      refine ih (acc ++ [s]) ?_
      rw [List.map_append]
      refine hacc.append (List.nodup_singleton _) ?_
      intro q hq hq1
      simp only [List.map_cons, List.map_nil, List.mem_singleton] at hq1
      subst hq1
      obtain ⟨x, hx, hxq⟩ := List.mem_map.mp hq
      rw [List.any_eq_true] at hs
      exact hs ⟨x, hx, by simp [hxq]⟩

/-- C8 (amended): the strategy list always contains the direct-fallback
strategy on the raw query with weight 1.0, and that strategy is the first
(highest-priority) element — not the last; duplicate query strings are
removed keeping the first occurrence, so the deduplicated list has pairwise
distinct queries and is a subsequence of the raw strategy list. -/
theorem C8_strategy_planner (query : Str) (intent : SearchIntent) :
    (dedupe_strategies (search_strategies query intent)).head?
        = some { query := query, weight := 1 }
    ∧ ((dedupe_strategies (search_strategies query intent)).map
        SearchStrategy.query).Nodup
    ∧ (dedupe_strategies (search_strategies query intent)).Sublist
        (search_strategies query intent) := by
  obtain ⟨t, ht, hsub⟩ :=
    dedupe_strategies_cons { query := query, weight := 1 }
      (intent.genres.map (fun g => { query := chars "tag:" ++ g, weight := 9/10 })
        ++ intent.artists.map
            (fun a => { query := chars "artist:\"" ++ a ++ chars "\"", weight := 8/10 })
        ++ intent.moods.map (fun m => { query := m, weight := 7/10 }))
  have hform : search_strategies query intent
      = { query := query, weight := 1 } ::
          (intent.genres.map (fun g => { query := chars "tag:" ++ g, weight := 9/10 })
            ++ intent.artists.map
                (fun a => { query := chars "artist:\"" ++ a ++ chars "\"", weight := 8/10 })
            ++ intent.moods.map (fun m => { query := m, weight := 7/10 })) := rfl
  refine ⟨?_, ?_, ?_⟩
  · rw [hform, ht]; rfl
  · exact dedupe_strategies_nodup_aux _ [] (by simp)
  · rw [hform, ht]
    exact hsub.cons₂ _

/-- Counterexample to C8 as stated: for the query "rock" the deduplicated
strategy list ends with the genre strategy `tag:rock`, not with the
direct-fallback strategy on the raw query. -/
theorem C8_counterexample :
    ((dedupe_strategies (search_strategies (chars "rock")
        (extract_search_intent (chars "rock")))).map SearchStrategy.query).getLast?
      = some (chars "tag:rock")
    ∧ chars "tag:rock" ≠ chars "rock" := by
  constructor
  · decide
  · decide

theorem ite_add_le {p q : Prop} [Decidable p] [Decidable q] (hpq : p → q)
    (v : Nat) {x y : Nat} (hxy : x ≤ y) :
    (if p then x + v else x) ≤ (if q then y + v else y) := by
  by_cases hp : p
  · rw [if_pos hp, if_pos (hpq hp)]
    omega
  · by_cases hq : q
    · rw [if_neg hp, if_pos hq]
      omega
    · rw [if_neg hp, if_neg hq]
      exact hxy

theorem foldl_mono_step {α : Type _} (l : List α) (f g : Nat → α → Nat)
    (hstep : ∀ x ∈ l, ∀ a b : Nat, a ≤ b → f a x ≤ g b x) :
    ∀ {a b : Nat}, a ≤ b → l.foldl f a ≤ l.foldl g b := by
  induction l with
  | nil => intro a b h; simpa using h
  | cons x xs ih =>
    intro a b h
    simp only [List.foldl_cons]
    exact ih (fun y hy => hstep y (List.mem_cons_of_mem _ hy))
      (hstep x (List.mem_cons_self x xs) _ _ h)

theorem any_or_strIn_mono (kws : List Str) (t n e : Str)
    (h : kws.any (fun k => strIn k t || strIn k n) = true) :
    kws.any (fun k => strIn k t || strIn k (n ++ e)) = true := by
  simp only [List.any_eq_true, Bool.or_eq_true] at h ⊢
  obtain ⟨k, hk, hor⟩ := h
  exact ⟨k, hk, hor.imp id (strIn_append e)⟩

theorem artist_score_calc_mono (kws frags : List Str) (n e : Str) :
    artist_score_calc kws frags n ≤ artist_score_calc kws frags (n ++ e) := by
  rw [artist_score_calc, artist_score_calc]
  refine Nat.add_le_add ?_ ?_
  · refine foldl_mono_step kws _ _ (fun w _ a b h => ?_) le_rfl
    exact ite_add_le (strIn_append e) _ h
  · refine foldl_mono_step frags _ _ (fun w _ a b h => ?_) le_rfl
    exact ite_add_le (strIn_append e) 25 h

theorem genre_score_calc_mono (genres : List Str) (t n e : Str) (tags : List Str) :
    genre_score_calc genres t n tags ≤ genre_score_calc genres t (n ++ e) tags := by
  rw [genre_score_calc, genre_score_calc]
  refine foldl_mono_step _ _ _ (fun g _ a b h => ?_) le_rfl
  dsimp only
  exact ite_add_le (any_or_strIn_mono _ _ _ _) 15 (ite_add_le (fun hh => hh) 20 h)

theorem mood_score_calc_mono (moods : List Str) (t n e : Str) (tags : List Str) :
    mood_score_calc moods t n tags ≤ mood_score_calc moods t (n ++ e) tags := by
  rw [mood_score_calc, mood_score_calc]
  refine foldl_mono_step _ _ _ (fun m _ a b h => ?_) le_rfl
  dsimp only
  exact ite_add_le (fun hh => hh) 5 (ite_add_le (any_or_strIn_mono _ _ _ _) 8 h)

theorem penalty_mono {sT sA sA' sG sG' u u' : Nat}
    (hA : sA ≤ sA') (hG : sG ≤ sG') (hu : u ≤ u') :
    (if sT = 0 ∧ sA = 0 ∧ sG = 0 then u - 20 else u)
      ≤ (if sT = 0 ∧ sA' = 0 ∧ sG' = 0 then u' - 20 else u') := by
  by_cases hc : sT = 0 ∧ sA' = 0 ∧ sG' = 0
  · have hA0 : sA = 0 := Nat.le_zero.mp (hc.2.1 ▸ hA)
    have hG0 : sG = 0 := Nat.le_zero.mp (hc.2.2 ▸ hG)
    rw [if_pos (⟨hc.1, hA0, hG0⟩ : sT = 0 ∧ sA = 0 ∧ sG = 0), if_pos hc]
    omega
  · rw [if_neg hc]
    by_cases hc0 : sT = 0 ∧ sA = 0 ∧ sG = 0
    · rw [if_pos hc0]; omega
    · rw [if_neg hc0]; exact hu

theorem capped_sum_mono_artist (r : Recording) (i : SearchIntent)
    (p : Option UserProfile) (ext : Str) :
    capped_sub_score_sum r i p ≤ capped_sub_score_sum (appendToArtist r ext) i p := by
  rw [capped_sub_score_sum, capped_sub_score_sum]
  dsimp only [appendToArtist]
  rw [lowerStr_append]
  refine Nat.add_le_add (Nat.add_le_add (Nat.add_le_add (Nat.add_le_add le_rfl ?_) ?_) ?_)
    le_rfl
  · exact min_le_min (artist_score_calc_mono _ _ _ _) le_rfl
  · exact min_le_min (genre_score_calc_mono _ _ _ _ _) le_rfl
  · exact min_le_min (mood_score_calc_mono _ _ _ _ _) le_rfl

theorem calc_score_mono_artist (r : Recording) (i : SearchIntent)
    (p : Option UserProfile) (ext : Str) :
    calculate_relevance_score r i p
      ≤ calculate_relevance_score (appendToArtist r ext) i p := by
  have h1 : calculate_relevance_score r i p
      = min (penalized_sub_score_sum r i p) 100 := rfl
  have h2 : calculate_relevance_score (appendToArtist r ext) i p
      = min (penalized_sub_score_sum (appendToArtist r ext) i p) 100 := rfl
  rw [h1, h2]
  refine min_le_min ?_ le_rfl
  rw [penalized_sub_score_sum, penalized_sub_score_sum]
  dsimp only [appendToArtist]
  rw [lowerStr_append]
  exact penalty_mono (artist_score_calc_mono _ _ _ _) (genre_score_calc_mono _ _ _ _ _)
    (capped_sum_mono_artist r i p ext)

/-- C5 (amended): the scorer is monotonic in artist-name matches: appending
any suffix — in particular an additional keyword from the intent's keyword
list — to a candidate's artist name, all else equal, never decreases the
weighted score, for any non-negative strategy weight.  For the title the
claimed monotonicity fails, because the whole-title equality bonus (15
versus 10 points) can be lost. -/
theorem C5_artist_append_monotonic (r : Recording) (i : SearchIntent)
    (p : Option UserProfile) (ext : Str) {w : ℚ} (hw : 0 ≤ w) :
    apply_strategy_weight (calculate_relevance_score r i p) w
      ≤ apply_strategy_weight (calculate_relevance_score (appendToArtist r ext) i p) w :=
  apply_strategy_weight_mono hw (calc_score_mono_artist r i p ext)

/-- Witness for C5 (amended): instantiated at weight 1, the intent of query
"rock" and a concrete candidate extended by the keyword " rock". -/
theorem C5_artist_append_monotonic_witness :
    (0 : ℚ) ≤ 1 ∧
      apply_strategy_weight (calculate_relevance_score
          { id := chars "t1", title := chars "song", artist_id := chars "a1",
            artist_name := chars "the", tags := [] }
          (extract_search_intent (chars "rock")) none) 1
        ≤ apply_strategy_weight (calculate_relevance_score
            (appendToArtist
              { id := chars "t1", title := chars "song", artist_id := chars "a1",
                artist_name := chars "the", tags := [] } (chars " rock"))
            (extract_search_intent (chars "rock")) none) 1 :=
  ⟨zero_le_one,
    C5_artist_append_monotonic
      { id := chars "t1", title := chars "song", artist_id := chars "a1",
        artist_name := chars "the", tags := [] }
      (extract_search_intent (chars "rock")) none (chars " rock") zero_le_one⟩

/-- Counterexample to C5 as stated: "rock" is a keyword of the intent of
query "rock", and appending it (with a separating space) to the title of the
candidate titled "rock" strictly decreases the weighted score (from 30 to
25): the whole-title bonus of the title block degrades from 15 to 10. -/
theorem C5_counterexample :
    chars "rock" ∈ (extract_search_intent (chars "rock")).keywords
    ∧ apply_strategy_weight (calculate_relevance_score
        { id := chars "t1", title := chars "rock" ++ chars " " ++ chars "rock",
          artist_id := chars "a1", artist_name := chars "x", tags := [] }
        (extract_search_intent (chars "rock")) none) 1
      < apply_strategy_weight (calculate_relevance_score
          { id := chars "t1", title := chars "rock", artist_id := chars "a1",
            artist_name := chars "x", tags := [] }
          (extract_search_intent (chars "rock")) none) 1 := by
  constructor
  · decide
  · rw [apply_strategy_weight_one, apply_strategy_weight_one]
    decide

theorem sort_by_score_desc_perm (l : List RecOut) :
    List.Perm (sort_by_score_desc l) l :=
  List.perm_insertionSort recGE l

theorem sort_by_score_desc_sorted (l : List RecOut) :
    (sort_by_score_desc l).Pairwise recGE :=
  List.sorted_insertionSort recGE l

theorem mem_sort_by_score_desc {x : RecOut} {l : List RecOut}
    (hx : x ∈ sort_by_score_desc l) : x ∈ l :=
  (sort_by_score_desc_perm l).mem_iff.mp hx

theorem upsert_mem {acc : List RecOut} {r x : RecOut} (hx : x ∈ upsert_rec acc r) :
    x ∈ acc ∨ x = r := by
  induction acc with
  | nil =>
    rw [upsert_rec] at hx
    exact Or.inr (List.mem_singleton.mp hx)
  | cons y ys ih =>
    rw [upsert_rec] at hx
    by_cases hid : y.track_id = r.track_id
    · rw [if_pos hid] at hx
      rcases List.mem_cons.mp hx with h1 | h1
      · by_cases hs : y.score < r.score
        · rw [if_pos hs] at h1
          exact Or.inr h1
        · rw [if_neg hs] at h1
          exact Or.inl (by rw [h1]; exact List.mem_cons_self y ys)
      · exact Or.inl (List.mem_cons_of_mem y h1)
    · rw [if_neg hid] at hx
      rcases List.mem_cons.mp hx with h1 | h1
      · exact Or.inl (by rw [h1]; exact List.mem_cons_self y ys)
      · rcases ih h1 with h2 | h2
        · exact Or.inl (List.mem_cons_of_mem y h2)
        · exact Or.inr h2

theorem upsert_id_mem {acc : List RecOut} {r : RecOut} {q : Str}
    (hq : q ∈ (upsert_rec acc r).map RecOut.track_id) :
    q ∈ acc.map RecOut.track_id ∨ q = r.track_id := by
  obtain ⟨x, hx, hxd⟩ := List.mem_map.mp hq
  rcases upsert_mem hx with h | h
  · exact Or.inl (List.mem_map.mpr ⟨x, h, hxd⟩)
  · exact Or.inr (by rw [← hxd, h])

theorem upsert_nodup {acc : List RecOut} {r : RecOut}
    (h : (acc.map RecOut.track_id).Nodup) :
    ((upsert_rec acc r).map RecOut.track_id).Nodup := by
  induction acc with
  | nil => simp [upsert_rec]
  | cons y ys ih =>
    rw [List.map_cons, List.nodup_cons] at h
    rw [upsert_rec]
    by_cases hid : y.track_id = r.track_id
    · rw [if_pos hid, List.map_cons, List.nodup_cons]
      have hsame : (if y.score < r.score then r else y).track_id = y.track_id := by
        by_cases hs : y.score < r.score
        · rw [if_pos hs]; exact hid.symm
        · rw [if_neg hs]
      rw [hsame]
      exact ⟨h.1, h.2⟩
    · rw [if_neg hid, List.map_cons, List.nodup_cons]
      refine ⟨?_, ih h.2⟩
      intro hy
      rcases upsert_id_mem hy with h1 | h1
      · exact h.1 h1
      · exact hid h1

theorem dedupe_by_track_nodup (l : List RecOut) :
    ((dedupe_by_track l).map RecOut.track_id).Nodup := by
  rw [dedupe_by_track]
  suffices h : ∀ acc : List RecOut, (acc.map RecOut.track_id).Nodup →
      ((l.foldl upsert_rec acc).map RecOut.track_id).Nodup from h [] (by simp)
  induction l with
  | nil => intro acc h; exact h
  | cons x xs ih => intro acc h; exact ih (upsert_rec acc x) (upsert_nodup h)

theorem foldl_upsert_subset (l : List RecOut) (x : RecOut) :
    ∀ acc : List RecOut, x ∈ l.foldl upsert_rec acc → x ∈ acc ∨ x ∈ l := by
  induction l with
  | nil => intro acc h; exact Or.inl h
  | cons y ys ih =>
    intro acc h
    rw [List.foldl_cons] at h
    rcases ih (upsert_rec acc y) h with h1 | h1
    · rcases upsert_mem h1 with h2 | h2
      · exact Or.inl h2
      · exact Or.inr (by rw [h2]; exact List.mem_cons_self y ys)
    · exact Or.inr (List.mem_cons_of_mem y h1)

theorem dedupe_by_track_subset {l : List RecOut} {x : RecOut}
    (hx : x ∈ dedupe_by_track l) : x ∈ l := by
  rw [dedupe_by_track] at hx
  rcases foldl_upsert_subset l x [] hx with h1 | h1
  · cases h1
  · exact h1

theorem upsert_preserves_ge {acc : List RecOut} {r x : RecOut} (hx : x ∈ acc) :
    ∃ y ∈ upsert_rec acc r, y.track_id = x.track_id ∧ x.score ≤ y.score := by
  induction acc with
  | nil => cases hx
  | cons z zs ih =>
    rw [upsert_rec]
    by_cases hid : z.track_id = r.track_id
    · rw [if_pos hid]
      rcases List.mem_cons.mp hx with h1 | h1
      · subst h1
        refine ⟨if x.score < r.score then r else x, List.mem_cons_self _ _, ?_, ?_⟩
        · by_cases hs : x.score < r.score
          · rw [if_pos hs, ← hid]
          · rw [if_neg hs]
        · by_cases hs : x.score < r.score
          · rw [if_pos hs]; exact le_of_lt hs
          · rw [if_neg hs]
      · exact ⟨x, List.mem_cons_of_mem _ h1, rfl, le_rfl⟩
    · rw [if_neg hid]
      rcases List.mem_cons.mp hx with h1 | h1
      · subst h1
        exact ⟨x, List.mem_cons_self _ _, rfl, le_rfl⟩
      · obtain ⟨y, hy, hyd, hys⟩ := ih h1
        exact ⟨y, List.mem_cons_of_mem _ hy, hyd, hys⟩

theorem upsert_new_ge (acc : List RecOut) (r : RecOut) :
    ∃ y ∈ upsert_rec acc r, y.track_id = r.track_id ∧ r.score ≤ y.score := by
  induction acc with
  | nil => exact ⟨r, by rw [upsert_rec]; exact List.mem_singleton.mpr rfl, rfl, le_rfl⟩
  | cons z zs ih =>
    rw [upsert_rec]
    by_cases hid : z.track_id = r.track_id
    · rw [if_pos hid]
      by_cases hs : z.score < r.score
      · exact ⟨r, by rw [if_pos hs]; exact List.mem_cons_self _ _, rfl, le_rfl⟩
      · exact ⟨z, by rw [if_neg hs]; exact List.mem_cons_self _ _, hid,
          Nat.le_of_not_lt hs⟩
    · rw [if_neg hid]
      obtain ⟨y, hy, hyd, hys⟩ := ih
      exact ⟨y, List.mem_cons_of_mem _ hy, hyd, hys⟩

theorem foldl_upsert_preserves {l : List RecOut} :
    ∀ {acc : List RecOut} {tid : Str} {s : Nat},
      (∃ y ∈ acc, y.track_id = tid ∧ s ≤ y.score) →
      ∃ y ∈ l.foldl upsert_rec acc, y.track_id = tid ∧ s ≤ y.score := by
  induction l with
  | nil => intro acc tid s h; exact h
  | cons x xs ih =>
    intro acc tid s h
    rw [List.foldl_cons]
    refine ih ?_
    obtain ⟨y, hy, hyd, hys⟩ := h
    obtain ⟨z, hz, hzd, hzs⟩ := upsert_preserves_ge (r := x) hy
    exact ⟨z, hz, by rw [hzd, hyd], le_trans hys hzs⟩

theorem dedupe_by_track_max {l : List RecOut} {r : RecOut} (hr : r ∈ l) :
    ∃ y ∈ dedupe_by_track l, y.track_id = r.track_id ∧ r.score ≤ y.score := by
  rw [dedupe_by_track]
  suffices h : ∀ acc : List RecOut, r ∈ l →
      ∃ y ∈ l.foldl upsert_rec acc, y.track_id = r.track_id ∧ r.score ≤ y.score
    from h [] hr
  clear hr
  induction l with
  | nil => intro acc h; cases h
  | cons x xs ih =>
    intro acc hr
    rw [List.foldl_cons]
    rcases List.mem_cons.mp hr with h1 | h1
    · subst h1
      exact foldl_upsert_preserves (upsert_new_ge acc r)
    · exact ih _ h1

/-- C7: for every backend behaviour, query, limit and profile, the engine's
query recommendations have length at most `limit`, pairwise distinct track
ids, scores sorted in descending order, and each returned item carries the
highest score seen for its track id among all collected recommendations. -/
theorem C7_query_recs_shape (search : SearchFn) (query : Str) (limit : Nat)
    (profile : Option UserProfile) :
    (get_query_recommendations search query limit profile).length ≤ limit
    ∧ ((get_query_recommendations search query limit profile).map RecOut.track_id).Nodup
    ∧ (get_query_recommendations search query limit profile).Pairwise recGE
    ∧ ∀ x ∈ get_query_recommendations search query limit profile,
        ∀ r ∈ raw_query_recs search query limit profile,
          r.track_id = x.track_id → r.score ≤ x.score := by
  have hget : get_query_recommendations search query limit profile
      = (sort_by_score_desc
          (dedupe_by_track (raw_query_recs search query limit profile))).take limit := rfl
  have hnodup_sort : ((sort_by_score_desc
      (dedupe_by_track (raw_query_recs search query limit profile))).map
        RecOut.track_id).Nodup := by
    have hperm : List.Perm
        ((sort_by_score_desc
          (dedupe_by_track (raw_query_recs search query limit profile))).map
            RecOut.track_id)
        ((dedupe_by_track (raw_query_recs search query limit profile)).map
          RecOut.track_id) :=
      (sort_by_score_desc_perm _).map _
    exact hperm.nodup_iff.mpr (dedupe_by_track_nodup _)
  refine ⟨?_, ?_, ?_, ?_⟩
  · rw [hget, List.length_take]
    exact min_le_left _ _
  · rw [hget, List.map_take]
    exact (List.take_sublist _ _).nodup hnodup_sort
  · rw [hget]
    exact List.Pairwise.sublist (List.take_sublist _ _) (sort_by_score_desc_sorted _)
  · intro x hx r hr hid
    rw [hget] at hx
    have hx1 : x ∈ sort_by_score_desc
        (dedupe_by_track (raw_query_recs search query limit profile)) :=
      (List.take_sublist _ _).mem hx
    have hx2 : x ∈ dedupe_by_track (raw_query_recs search query limit profile) :=
      mem_sort_by_score_desc hx1
    obtain ⟨y, hy, hyd, hys⟩ := dedupe_by_track_max hr
    have hxid : x.track_id = y.track_id := by rw [hyd, hid]
    have hxy : x = y :=
      List.inj_on_of_nodup_map (dedupe_by_track_nodup _) hx2 hy hxid
    rw [hxy]
    exact hys

theorem strategy_results_of_error {search : SearchFn} {limit : Nat}
    {intent : SearchIntent} {profile : Option UserProfile} {s : SearchStrategy}
    (h : ∀ q n, ∃ e, search q n = Except.error e) :
    strategy_results search limit intent profile s = [] := by
  obtain ⟨e, he⟩ := h s.query (min (limit * 2) 25)
  rw [strategy_results, he]

theorem raw_query_recs_of_error {search : SearchFn} {query : Str} {limit : Nat}
    {profile : Option UserProfile}
    (h : ∀ q n, ∃ e, search q n = Except.error e) :
    raw_query_recs search query limit profile = [] := by
  suffices hall : ∀ (L : List SearchStrategy) (acc : List RecOut),
      L.foldl (fun acc s => acc ++ strategy_results search limit
        (extract_search_intent query) profile s) acc = acc by
    rw [raw_query_recs]
    exact hall _ []
  intro L
  induction L with
  | nil => intro acc; rfl
  | cons s ss ih =>
    intro acc
    rw [List.foldl_cons, strategy_results_of_error h, List.append_nil]
    exact ih _

/-- C2 (amended): when every catalog call inside the engine fails, the
failures are contained inside the engine (which is total for every backend
behaviour): the endpoint returns status 200 with an empty recommendations
list and `query_analyzed` equal to the extracted intent — whose key set
contains no `error` field.  An engine-internal condition therefore never
surfaces as a 500. -/
theorem C2_engine_failure_contained (search : SearchFn) (query : Str) (limit : Nat)
    (profile : Option UserProfile)
    (h : ∀ q n, ∃ e, search q n = Except.error e) :
    rec_query_endpoint search (Except.ok profile) query limit
      = { status := 200, recommendations := [],
          query_analyzed := extract_search_intent query }
    ∧ "error" ∉ intent_json_keys
        ((rec_query_endpoint search (Except.ok profile) query limit).query_analyzed) := by
  have hrecs : get_query_recommendations search query limit profile = [] := by
    rw [get_query_recommendations, raw_query_recs_of_error h]
    exact List.take_nil
  constructor
  · show QueryResponse.mk 200 (get_query_recommendations search query limit profile)
      (extract_search_intent query) = _
    rw [hrecs]
  · show "error" ∉ ["genres", "moods", "artists", "keywords", "original_query"]
    decide

/-- Witness for C2 (amended): a backend failing every call, at the query
"rock" and limit 5 without a profile. -/
theorem C2_engine_failure_contained_witness :
    (∀ q n, ∃ e, (fun (_ : Str) (_ : Nat) =>
        (Except.error [] : Except Str (List Recording))) q n = Except.error e)
    ∧ rec_query_endpoint (fun _ _ => Except.error []) (Except.ok none) (chars "rock") 5
        = { status := 200, recommendations := [],
            query_analyzed := extract_search_intent (chars "rock") }
    ∧ "error" ∉ intent_json_keys ((rec_query_endpoint (fun _ _ => Except.error [])
        (Except.ok none) (chars "rock") 5).query_analyzed) :=
  ⟨fun _ _ => ⟨[], rfl⟩,
    (C2_engine_failure_contained (fun _ _ => Except.error []) (chars "rock") 5 none
      (fun _ _ => ⟨[], rfl⟩)).1,
    (C2_engine_failure_contained (fun _ _ => Except.error []) (chars "rock") 5 none
      (fun _ _ => ⟨[], rfl⟩)).2⟩

/-- Counterexample to C2 as stated: with every catalog call failing, the
endpoint does answer 200 with an empty list — but `query_analyzed` is the
extracted intent, whose key set (genres, moods, artists, keywords,
original_query) contains no `error` field, contrary to the claim. -/
theorem C2_counterexample :
    (rec_query_endpoint (fun _ _ => Except.error []) (Except.ok none)
        (chars "rock") 5).status = 200
    ∧ (rec_query_endpoint (fun _ _ => Except.error []) (Except.ok none)
        (chars "rock") 5).recommendations = []
    ∧ "error" ∉ intent_json_keys ((rec_query_endpoint (fun _ _ => Except.error [])
        (Except.ok none) (chars "rock") 5).query_analyzed) := by
  refine ⟨rfl, ?_, by decide⟩
  decide

/-- C3 (code bug): the endpoint applies no emptiness validation.  For the
query that is empty (hence empty after trimming), with a backend that
returns one recording for every search, the response status is 200 — not
400 — and the engine has been invoked: its output for the empty query is
returned as a non-empty recommendations list. -/
theorem C3_empty_query_not_rejected :
    (rec_query_endpoint echo_search (Except.ok none) (chars "") 10).status = 200
    ∧ (rec_query_endpoint echo_search (Except.ok none) (chars "") 10).recommendations
        = get_query_recommendations echo_search (chars "") 10 none
    ∧ (rec_query_endpoint echo_search (Except.ok none)
        (chars "") 10).recommendations ≠ [] := by
  refine ⟨rfl, rfl, ?_⟩
  decide

theorem diversity_pass_one (l : List RecOut) :
    ∀ seen : List Str,
      (diversity_pass 1 l seen).Pairwise
        (fun a b => lowerStr a.artist_name ≠ lowerStr b.artist_name)
      ∧ (∀ x ∈ diversity_pass 1 l seen, lowerStr x.artist_name ∉ seen) := by
  induction l with
  | nil =>
    intro seen
    exact ⟨List.Pairwise.nil, by intro x hx; cases hx⟩
  | cons r rs ih =>
    intro seen
    rw [diversity_pass]
    by_cases hc : seen.count (lowerStr r.artist_name) < 1
    · rw [if_pos hc]
      have hnotin : lowerStr r.artist_name ∉ seen := by
        rw [Nat.lt_one_iff] at hc
        exact List.count_eq_zero.mp hc
      obtain ⟨hpw, hmem⟩ := ih (lowerStr r.artist_name :: seen)
      refine ⟨List.Pairwise.cons ?_ hpw, ?_⟩
      · intro b hb heq
        have hb2 := hmem b hb
        rw [List.mem_cons, not_or] at hb2
        exact hb2.1 heq.symm
      · intro x hx
        rcases List.mem_cons.mp hx with h1 | h1
        · rw [h1]; exact hnotin
        · have hx2 := hmem x h1
          rw [List.mem_cons, not_or] at hx2
          exact hx2.2
    · rw [if_neg hc]
      exact ih seen

theorem diversity_pass_sublist (m : Nat) (l : List RecOut) :
    ∀ seen : List Str, (diversity_pass m l seen).Sublist l := by
  induction l with
  | nil => intro seen; rw [diversity_pass]
  | cons r rs ih =>
    intro seen
    rw [diversity_pass]
    by_cases hc : seen.count (lowerStr r.artist_name) < m
    · rw [if_pos hc]
      exact (ih _).cons₂ r
    · rw [if_neg hc]
      exact (ih _).cons r

/-- C6 (spec-modelled): the diversity filter with `max_per_artist = 1`
iterates the score-descending sort of its input (its output is a subsequence
of that sort) and never returns two items with the same case-insensitive
artist name. -/
theorem C6_diversity_filter (recs : List RecOut) :
    (ensure_artist_diversity recs 1).Pairwise
      (fun a b => lowerStr a.artist_name ≠ lowerStr b.artist_name)
    ∧ (ensure_artist_diversity recs 1).Sublist (sort_by_score_desc recs) := by
  rw [ensure_artist_diversity]
  exact ⟨(diversity_pass_one (sort_by_score_desc recs) []).1,
    diversity_pass_sublist 1 (sort_by_score_desc recs) []⟩

theorem foldl_mem_invariant {α β : Type _} (P : β → Prop) (f : List β → α → List β)
    (l : List α)
    (hstep : ∀ acc a, (∀ x ∈ acc, P x) → ∀ x ∈ f acc a, P x) :
    ∀ acc, (∀ x ∈ acc, P x) → ∀ x ∈ l.foldl f acc, P x := by
  induction l with
  | nil => intro acc h; exact h
  | cons a as ih =>
    intro acc h
    rw [List.foldl_cons]
    exact ih (f acc a) (hstep acc a h)

theorem profile_artist_recs_score (getRecs : ArtistRecsFn) (favs : List Str) :
    ∀ x ∈ profile_artist_recs getRecs favs, x.score = 95 := by
  rw [profile_artist_recs]
  refine foldl_mem_invariant _ _ _ ?_ [] (by intro x hx; cases hx)
  intro acc aid h x hx
  cases hys : getRecs aid 20 with
  | error e =>
    rw [hys] at hx
    exact h x hx
  | ok recs =>
    rw [hys] at hx
    rcases List.mem_append.mp hx with h1 | h1
    · exact h x h1
    · obtain ⟨r, _, hrx⟩ := List.mem_map.mp h1
      rw [← hrx]

theorem profile_genre_queries_inv (search : SearchFn) (profile : UserProfile) (g : Str)
    (limit : Nat) (qs : List Str) :
    ∀ acc : List RecOut, (∀ x ∈ acc, 70 ≤ x.score) →
      ∀ x ∈ profile_genre_queries search profile g limit qs acc, 70 ≤ x.score := by
  induction qs with
  | nil =>
    intro acc h
    rw [profile_genre_queries]
    exact h
  | cons q qs ih =>
    intro acc h
    rw [profile_genre_queries]
    cases hys : search q 10 with
    | error e => exact h
    | ok grecs =>
      dsimp only
      have hacc2 : ∀ x ∈ acc ++ (grecs.take 2).map (profile_genre_rec g profile),
          70 ≤ x.score := by
        intro x hx
        rcases List.mem_append.mp hx with h1 | h1
        · exact h x h1
        · obtain ⟨r, _, hrx⟩ := List.mem_map.mp h1
          rw [← hrx]
          exact le_max_right _ _
      split
      · exact hacc2
      · exact ih _ hacc2

theorem profile_raw_recs_score (getRecs : ArtistRecsFn) (search : SearchFn)
    (profile : UserProfile) (limit : Nat) :
    ∀ x ∈ profile_raw_recs getRecs search profile limit, 70 ≤ x.score := by
  rw [profile_raw_recs]
  refine foldl_mem_invariant _ _ _ ?_ _ ?_
  · intro acc g h
    exact profile_genre_queries_inv search profile g limit (genre_search_queries g) acc h
  · intro x hx
    have h95 := profile_artist_recs_score getRecs profile.favorite_artists x hx
    omega

theorem foldl_dedupe_first_subset (l : List RecOut) (x : RecOut) :
    ∀ acc : List RecOut,
      x ∈ l.foldl (fun (acc : List RecOut) r =>
        if acc.any (fun y => y.track_id = r.track_id) then acc else acc ++ [r]) acc →
      x ∈ acc ∨ x ∈ l := by
  induction l with
  | nil => intro acc h; exact Or.inl h
  | cons r rs ih =>
    intro acc h
    rw [List.foldl_cons] at h
    rcases ih _ h with h1 | h1
    · by_cases hc : acc.any (fun y => y.track_id = r.track_id)
      · rw [if_pos hc] at h1
        exact Or.inl h1
      · rw [if_neg hc] at h1
        rcases List.mem_append.mp h1 with h2 | h2
        · exact Or.inl h2
        · exact Or.inr (by rw [List.mem_singleton.mp h2]; exact List.mem_cons_self r rs)
    · exact Or.inr (List.mem_cons_of_mem r h1)

theorem dedupe_first_by_track_subset {l : List RecOut} {x : RecOut}
    (hx : x ∈ dedupe_first_by_track l) : x ∈ l := by
  rw [dedupe_first_by_track] at hx
  rcases foldl_dedupe_first_subset l x [] hx with h | h
  · cases h
  · exact h

/-- C9: every recommendation returned by `get_profile_recommendations` has
score at least 70: favourite-artist recommendations carry the fixed score
95, and genre-derived recommendations are floored at 70. -/
theorem C9_profile_scores (getRecs : ArtistRecsFn) (search : SearchFn)
    (profile : UserProfile) (limit : Nat) :
    (∀ x ∈ get_profile_recommendations getRecs search profile limit, 70 ≤ x.score)
    ∧ (∀ x ∈ profile_artist_recs getRecs profile.favorite_artists, x.score = 95)
    ∧ (∀ (g : Str) (r : Recording), 70 ≤ (profile_genre_rec g profile r).score) := by
  refine ⟨?_, profile_artist_recs_score getRecs profile.favorite_artists,
    fun g r => le_max_right _ _⟩
  intro x hx
  have h1 : x ∈ sort_by_score_desc (dedupe_first_by_track
      (profile_raw_recs getRecs search profile limit)) :=
    (List.take_sublist _ _).mem hx
  have h2 := mem_sort_by_score_desc h1
  have h3 := dedupe_first_by_track_subset h2
  exact profile_raw_recs_score getRecs search profile limit x h3

theorem similarity_base_ge (artist_name : Str) (primary a : ArtistRec) :
    60 ≤ similarity_base artist_name primary a := by
  rw [similarity_base]
  repeat' split
  all_goals omega

theorem similar_artist_recs_score (getRecs : ArtistRecsFn) (artist_name : Str)
    (primary : ArtistRec) (artists : List ArtistRec) :
    ∀ x ∈ similar_artist_recs getRecs artist_name primary artists,
      60 ≤ x.score ∧ x.score ≤ 85 := by
  rw [similar_artist_recs]
  refine foldl_mem_invariant _ _ _ ?_ [] (by intro x hx; cases hx)
  intro acc a h x hx
  cases hys : getRecs a.id 4 with
  | error e =>
    rw [hys] at hx
    exact h x hx
  | ok recs =>
    rw [hys] at hx
    dsimp only at hx
    rcases List.mem_append.mp hx with h1 | h1
    · exact h x h1
    · obtain ⟨r, _, hrx⟩ := List.mem_map.mp h1
      rw [← hrx]
      exact ⟨le_min (similarity_base_ge artist_name primary a) (by omega),
        min_le_right _ _⟩

/-- C10: every recommendation returned by
`get_similar_artist_recommendations` has a score between 60 and 85
inclusive: the base similarity of 60 plus bonuses for name similarity,
country and begin-year proximity, capped at 85. -/
theorem C10_similar_scores (searchA : ArtistSearchFn) (getRecs : ArtistRecsFn)
    (artist_name : Str) (limit : Nat) :
    ∀ x ∈ get_similar_artist_recommendations searchA getRecs artist_name limit,
      60 ≤ x.score ∧ x.score ≤ 85 := by
  intro x hx
  rw [get_similar_artist_recommendations] at hx
  cases hs : searchA artist_name 5 with
  | error e =>
    rw [hs] at hx
    cases hx
  | ok artists =>
    cases artists with
    | nil =>
      rw [hs] at hx
      cases hx
    | cons primary rest =>
      rw [hs] at hx
      dsimp only at hx
      have h1 := (List.take_sublist _ _).mem hx
      have h2 := mem_sort_by_score_desc h1
      exact similar_artist_recs_score getRecs artist_name primary _ x h2

/-- Witness for C7: with a backend returning one fixed recording, the single
returned recommendation (score 15 for the query "hello") is in the output
and in the raw collection, and the kept score is maximal for its track id. -/
theorem C7_query_recs_shape_witness :
    ({ track_id := chars "t1", track_title := chars "hello", artist_id := chars "a1",
       artist_name := chars "x", score := 15,
       recommendation_type := chars "enhanced_query_based",
       search_strategy := chars "hello" } : RecOut)
      ∈ get_query_recommendations fixed_search (chars "hello") 5 none
    ∧ ({ track_id := chars "t1", track_title := chars "hello", artist_id := chars "a1",
         artist_name := chars "x", score := 15,
         recommendation_type := chars "enhanced_query_based",
         search_strategy := chars "hello" } : RecOut)
        ∈ raw_query_recs fixed_search (chars "hello") 5 none
    ∧ ({ track_id := chars "t1", track_title := chars "hello", artist_id := chars "a1",
         artist_name := chars "x", score := 15,
         recommendation_type := chars "enhanced_query_based",
         search_strategy := chars "hello" } : RecOut).score
        ≤ ({ track_id := chars "t1", track_title := chars "hello",
             artist_id := chars "a1", artist_name := chars "x", score := 15,
             recommendation_type := chars "enhanced_query_based",
             search_strategy := chars "hello" } : RecOut).score :=
  ⟨by decide, by decide,
    (C7_query_recs_shape fixed_search (chars "hello") 5 none).2.2.2
      { track_id := chars "t1", track_title := chars "hello", artist_id := chars "a1",
        artist_name := chars "x", score := 15,
        recommendation_type := chars "enhanced_query_based",
        search_strategy := chars "hello" } (by decide)
      { track_id := chars "t1", track_title := chars "hello", artist_id := chars "a1",
        artist_name := chars "x", score := 15,
        recommendation_type := chars "enhanced_query_based",
        search_strategy := chars "hello" } (by decide) rfl⟩

/-- Witness for C9: with fixed backends and the fixture profile, the single
returned recommendation is the favourite-artist one with score 95 ≥ 70. -/
theorem C9_profile_scores_witness :
    ({ track_id := chars "t1", track_title := chars "hello", artist_id := chars "a1",
       artist_name := chars "x", score := 95,
       recommendation_type := chars "profile_favorite_artist",
       search_strategy := [] } : RecOut)
      ∈ get_profile_recommendations fixed_search fixed_search profile_w 5
    ∧ 70 ≤ ({ track_id := chars "t1", track_title := chars "hello",
              artist_id := chars "a1", artist_name := chars "x", score := 95,
              recommendation_type := chars "profile_favorite_artist",
              search_strategy := [] } : RecOut).score :=
  ⟨by decide,
    (C9_profile_scores fixed_search fixed_search profile_w 5).1
      { track_id := chars "t1", track_title := chars "hello", artist_id := chars "a1",
        artist_name := chars "x", score := 95,
        recommendation_type := chars "profile_favorite_artist",
        search_strategy := [] } (by decide)⟩

/-- Witness for C10: with the fixture artists, the single returned similar
recommendation has score 75, inside [60, 85]. -/
theorem C10_similar_scores_witness :
    ({ track_id := chars "t1", track_title := chars "hello", artist_id := chars "b1",
       artist_name := chars "the prim band", score := 75,
       recommendation_type := chars "enhanced_similar_artist",
       search_strategy := [] } : RecOut)
      ∈ get_similar_artist_recommendations artist_search_w fixed_search (chars "prim") 5
    ∧ 60 ≤ ({ track_id := chars "t1", track_title := chars "hello",
              artist_id := chars "b1", artist_name := chars "the prim band",
              score := 75, recommendation_type := chars "enhanced_similar_artist",
              search_strategy := [] } : RecOut).score
    ∧ ({ track_id := chars "t1", track_title := chars "hello", artist_id := chars "b1",
         artist_name := chars "the prim band", score := 75,
         recommendation_type := chars "enhanced_similar_artist",
         search_strategy := [] } : RecOut).score ≤ 85 :=
  ⟨by decide,
    (C10_similar_scores artist_search_w fixed_search (chars "prim") 5
      { track_id := chars "t1", track_title := chars "hello", artist_id := chars "b1",
        artist_name := chars "the prim band", score := 75,
        recommendation_type := chars "enhanced_similar_artist",
        search_strategy := [] } (by decide)).1,
    (C10_similar_scores artist_search_w fixed_search (chars "prim") 5
      { track_id := chars "t1", track_title := chars "hello", artist_id := chars "b1",
        artist_name := chars "the prim band", score := 75,
        recommendation_type := chars "enhanced_similar_artist",
        search_strategy := [] } (by decide)).2⟩

end MBRec
